import Mathlib

/-!
Verification development for the conveRS chat relay (`src/server.rs`,
`src/message_parser.rs`).

The Rust code is shallowly embedded: pure data flow becomes Lean functions,
the shared `HashMap<String, String>` user registry becomes an association
list with overwrite-on-insert, the broadcast bus publish / per-subscriber
filter becomes a predicate over messages and session state, and the two
external HTTP collaborators (Binance price feed, Hacker News feed) become
oracles supplied as arguments.  A Rust `panic!` (the `.unwrap()` calls on
`serde_json::from_str` and `str::parse::<f32>`, and the indexed accesses in
the `!dm` handler) is modelled by `Option`: `none` means the surrounding
tokio task aborts.
-/

/-- Wire/domain entity from the `chat` proto: sender, timestamp (ms since
epoch), chatroom, content, optional direct-message target. -/
structure ChatMessage where
  sender : String
  timestamp : Int
  chatroom : String
  content : String
  target : String
deriving DecidableEq

/-- ANSI reset suffix emitted by the `colored` crate after every colored
fragment. -/
def ansiReset : String := "\x1b[0m"

/-- `colored::Colorize::truecolor(r, g, b)`: wraps the text in a 24-bit ANSI
foreground escape sequence. -/
def truecolor (r g b : Nat) (s : String) : String :=
  "\x1b[38;2;" ++ toString r ++ ";" ++ toString g ++ ";" ++ toString b ++ "m" ++ s ++ ansiReset

/-- `colored::Colorize::bright_yellow()`. -/
def bright_yellow (s : String) : String := "\x1b[93m" ++ s ++ ansiReset

/-- `colored::Colorize::bright_cyan()`. -/
def bright_cyan (s : String) : String := "\x1b[96m" ++ s ++ ansiReset

/-- `colored::Colorize::red()`. -/
def colRed (s : String) : String := "\x1b[31m" ++ s ++ ansiReset

/-- `colored::Colorize::white()`. -/
def colWhite (s : String) : String := "\x1b[37m" ++ s ++ ansiReset

/-- The `USERMAP` registry (`HashMap<String, String>`, username ↦ room),
modelled as an association list whose entry order stands in for the hash
map's unspecified iteration order.  Key uniqueness is an invariant
(`regKeysNodup`), maintained by `regInsert` / `regRemove`. -/
abbrev Registry := List (String × String)

/-- `HashMap::insert(k, v)`: insert or overwrite, last writer wins. -/
def regInsert (reg : Registry) (k v : String) : Registry :=
  (k, v) :: reg.filter fun e => e.1 != k

/-- `HashMap::remove(k)`. -/
def regRemove (reg : Registry) (k : String) : Registry :=
  reg.filter fun e => e.1 != k

/-- `HashMap::contains_key(k)`. -/
def regContains (reg : Registry) (k : String) : Bool :=
  reg.any fun e => e.1 == k

/-- `HashMap::get(k)` (first entry with key `k`). -/
def regLookup (reg : Registry) (k : String) : Option String :=
  match reg with
  | [] => none
  | (a, b) :: t => if a = k then some b else regLookup t k

/-- Registry key-uniqueness invariant (a `HashMap` holds one entry per key). -/
def regKeysNodup (reg : Registry) : Prop := (reg.map Prod.fst).Nodup

/-- `str::starts_with(p)` on the underlying character sequence. -/
def strStartsWith (s p : String) : Bool := p.data.isPrefixOf s.data

/-- `str::strip_prefix(lit).unwrap()` under the caller's guarantee that
`lit` is a prefix of `s` (the dispatch guard checked `starts_with`). -/
def dropLit (lit s : String) : String := ⟨s.data.drop lit.data.length⟩

/-- `str::split(sep)` for a single-character separator: splits at every
occurrence, keeping empty pieces, never returning an empty list. -/
def splitChar (sep : Char) : List Char → List (List Char)
  | [] => [[]]
  | c :: cs =>
    if c = sep then [] :: splitChar sep cs
    else
      match splitChar sep cs with
      | [] => [[c]]
      | h :: t => (c :: h) :: t

/-- `[String]::join(sep)` / `Vec::join`. -/
def joinSep (sep : String) : List String → String
  | [] => ""
  | [a] => a
  | a :: rest => a ++ sep ++ joinSep sep rest

/-- Fuel-driven worker for `trimStartMatches`; the fuel (the string length)
always suffices because each round removes at least one character. -/
def trimStartMatchesAux : Nat → String → String → String
  | 0, _, s => s
  | n + 1, pat, s =>
    if pat.data.length > 0 && pat.data.isPrefixOf s.data then
      trimStartMatchesAux n pat ⟨s.data.drop pat.data.length⟩
    else s

/-- `str::trim_start_matches(pat)`: repeatedly removes `pat` from the front. -/
def trimStartMatches (pat s : String) : String := trimStartMatchesAux s.data.length pat s

/-- Fuel-driven worker for `trimEndMatches`. -/
def trimEndMatchesAux : Nat → String → String → String
  | 0, _, s => s
  | n + 1, pat, s =>
    if pat.data.length > 0 && pat.data.isSuffixOf s.data then
      trimEndMatchesAux n pat ⟨s.data.take (s.data.length - pat.data.length)⟩
    else s

/-- `str::trim_end_matches(pat)`: repeatedly removes `pat` from the back. -/
def trimEndMatches (pat s : String) : String := trimEndMatchesAux s.data.length pat s

/-- `serde` target for the Binance ticker payload: `{symbol, price}`. -/
structure Currency where
  symbol : String
  price : String
deriving DecidableEq

/-- `serde` target for a Hacker News story; `by` and `url` are optional in
the provider's JSON (`by_` because `by` is a Lean keyword). -/
structure HNStory where
  by_ : Option String
  score : Int
  time : Int
  title : String
  url : Option String
deriving DecidableEq

deriving instance DecidableEq for Except

/-- Consume the literal `lit` from the front of `cs`, or fail. -/
def expectLit (lit : String) (cs : List Char) : Option (List Char) :=
  if lit.data.isPrefixOf cs then some (cs.drop lit.data.length) else none

/-- Read characters up to the next `"`; returns the body and the rest
(escape sequences inside JSON strings are not needed for this payload). -/
def splitAtQuote : List Char → Option (List Char × List Char)
  | [] => none
  | c :: rest =>
    if c = '"' then some ([], rest)
    else (splitAtQuote rest).map fun p => (c :: p.1, p.2)

/-- Models `serde_json::from_str::<Currency>` on the Binance response shape:
accepts the canonical rendering `\x7b"symbol":"S","price":"P"\x7d` and
returns `none` on anything else (in particular on every non-JSON body,
which is the claim-relevant behaviour: the source calls `.unwrap()` on the
result). -/
def parseCurrency (s : String) : Option Currency :=
  match expectLit "\x7b\"symbol\":\"" s.data with
  | none => none
  | some r1 =>
    match splitAtQuote r1 with
    | none => none
    | some (sym, r2) =>
      match expectLit ",\"price\":\"" r2 with
      | none => none
      | some r3 =>
        match splitAtQuote r3 with
        | none => none
        | some (price, r4) =>
          if r4 = "\x7d".data then some ⟨⟨sym⟩, ⟨price⟩⟩ else none

/-- Models the success domain of `str::parse::<f32>` restricted to the plain
decimal literals the price feed produces: optional sign, digits with at most
one decimal point, at least one digit.  (Exponent/`inf`/`NaN` forms are out
of scope; no claim depends on them.) -/
def isF32Lit (s : String) : Bool :=
  let cs := match s.data with
    | '-' :: t => t
    | '+' :: t => t
    | t => t
  match splitChar '.' cs with
  | [a] => !a.isEmpty && a.all Char.isDigit
  | [a, b] => (!a.isEmpty || !b.isEmpty) && a.all Char.isDigit && b.all Char.isDigit
  | _ => false

/-- Abstracts the `\x7bprice:.2\x7d` two-decimal float rendering of the
parsed price.  No claim inspects the digits of the rendered price, so the
binary-float rounding performed by Rust is not modelled; only the fact that
a successfully parsed price produces some rendered text matters. -/
def fmt2 (s : String) : String := s

/-- `str::to_uppercase` (ASCII-relevant part: the ticker symbols are ASCII;
Unicode special casing is out of scope for every claim). -/
def toUpperStr (s : String) : String := ⟨s.data.map Char.toUpper⟩

/-- Outcome of `reqwest::get(url)` followed by `Response::text()` for the
Binance call: `err` is a transport error (`Err` from `reqwest::get`),
otherwise a status code plus the body text (`none` body = `text()` failed). -/
inductive HttpResult where
  | err
  | ok (status : Nat) (body : Option String)
deriving DecidableEq

/-- `StatusCode::is_client_error() || is_server_error()`: 4xx or 5xx. -/
def isClientOrServerError (status : Nat) : Bool :=
  (500 ≤ status && status ≤ 599) || (400 ≤ status && status ≤ 499)

/-- Oracle outcome for one Hacker News story fetch (`get_story_info`):
transport error from `reqwest::get`/`text()`, a body `serde_json` cannot
parse (the source then panics on `.unwrap()`), or a parsed story. -/
inductive StoryOutcome where
  | transportErr
  | parseFail
  | story (s : HNStory)
deriving DecidableEq

/-- External-provider oracles threaded through one dispatch: the Binance
result keyed by the upper-cased currency, the Hacker News top-stories body
(`none` = transport/text error), the per-id story oracle, and the completion
order of `buffer_unordered` as a list of indices into the id list. -/
structure Providers where
  binance : String → HttpResult
  hnTop : Option String
  hnStory : String → StoryOutcome
  hnSched : List Nat

/-- `build_need_to_join_response`: prompt sent back to a user who has no
room yet; target becomes the original sender, sender becomes `"server"`. -/
def build_need_to_join_response (inbound : ChatMessage) : ChatMessage :=
  { inbound with
    target := inbound.sender
    sender := "server"
    content := "Type " ++ bright_yellow "!join <roomname>" ++ " to enter a room." }

/-- The `users_in_room` binding of `build_user_command_response`: usernames
whose registry room equals the caller's room, in registry iteration order. -/
def users_in_room (users : Registry) (room : String) : List String :=
  (users.filter fun e => e.2 == room).map Prod.fst

/-- `build_user_command_response` (`!user`). -/
def build_user_command_response (inbound : ChatMessage) (users : Registry) : ChatMessage :=
  { inbound with
    target := inbound.sender
    sender := "server"
    content := "-- Users in " ++ bright_cyan inbound.chatroom ++ ": "
      ++ bright_yellow (joinSep ", " (users_in_room users inbound.chatroom)) }

/-- `build_user_connection_response` (`!join <room>`): registry insert, then
the room-scoped announcement.  Returns the mutated registry with the
response. -/
def build_user_connection_response (s : String) (users : Registry) (inbound : ChatMessage)
    (ts : Int) : Registry × ChatMessage :=
  let new_room := dropLit "!join " s
  (regInsert users inbound.sender new_room,
   { sender := "server"
     timestamp := ts
     chatroom := new_room
     content := truecolor 153 140 139 ("-- " ++ inbound.sender ++ " has joined " ++ new_room)
     target := "" })

/-- `build_direct_message_response` (`!dm ...`).  `none` models a panic of
the session task: `cmd_split.get(1).unwrap()` when the split has fewer than
two pieces, and the slice `&cmd_split[2..]` when its start exceeds the
length (the second check is unreachable once the first succeeded, but both
panic sites of the source are represented). -/
def build_direct_message_response (s : String) (users : Registry) (inbound : ChatMessage)
    (ts : Int) : Option ChatMessage :=
  let cmd_split := (splitChar ' ' s.data).map fun l => String.mk l
  match cmd_split[1]? with
  | none => none
  | some target_user =>
    if cmd_split.length < 2 then none
    else if !(regContains users target_user) then
      some { sender := "server"
             timestamp := ts
             chatroom := inbound.chatroom
             content := "No user named " ++ bright_yellow target_user
               ++ " is currently connected."
             target := inbound.sender }
    else
      some { sender := inbound.sender
             timestamp := ts
             chatroom := inbound.chatroom
             content := joinSep " " (cmd_split.drop 2)
             target := target_user }

/-- `build_binance_command_response` (`!value <symbol>`).  `none` models a
panic of the session task: the source calls `.unwrap()` on the
`serde_json::from_str::<Currency>` result and on `price.parse::<f32>()`.
A transport error or a 4xx/5xx status degrades to red error text; a failed
`text()` leaves the content unchanged (the source's `if let Ok(value)`
silently falls through); the sender is always rewritten to `"server"`. -/
def build_binance_command_response (s : String) (inbound : ChatMessage)
    (http : HttpResult) : Option ChatMessage :=
  let currency := (toUpperStr (dropLit "!value " s))
  match http with
  | .err =>
    some { inbound with
      sender := "server"
      content := colRed "Something went wrong when trying to retrieve currency information" }
  | .ok status body =>
    if isClientOrServerError status then
      some { inbound with
        sender := "server"
        content := colRed "Error requesting conversion rate for" ++ " " ++ bright_yellow currency }
    else
      match body with
      | none => some { inbound with sender := "server" }
      | some value =>
        match parseCurrency value with
        | none => none
        | some parsed =>
          if isF32Lit parsed.price then
            some { inbound with
              sender := "server"
              content := bright_yellow "$" ++ bright_yellow currency ++ " is currently worth "
                ++ bright_yellow (fmt2 parsed.price) ++ bright_yellow "€" }
          else none

/-- One line of the `!news` result list, exactly the `format!` of the
source. -/
def formatStory (story : HNStory) : String :=
  truecolor 100 248 140 "▲" ++ " " ++ truecolor 100 248 140 (toString story.score)
    ++ " \t\"" ++ colWhite story.title ++ "\" " ++ truecolor 153 140 139 "by" ++ " "
    ++ truecolor 100 248 140 (story.by_.getD "") ++ "\n\t"
    ++ truecolor 99 215 253 (story.url.getD "")

/-- `get_story_info(id)` applied to the oracle's outcome for that id:
transport errors propagate as `Err` (`?`), an unparsable body panics
(`serde_json::from_str(..).unwrap()`), a parsed story is `Ok`. -/
def get_story_info (o : StoryOutcome) : Option (Except Unit HNStory) :=
  match o with
  | .transportErr => some (Except.error ())
  | .parseFail => none
  | .story s => some (Except.ok s)

/-- `str::trim`: remove leading and trailing whitespace (character-level
model; the ids here are ASCII digits with spaces). -/
def trimStr (s : String) : String :=
  ⟨((s.data.dropWhile Char.isWhitespace).reverse.dropWhile Char.isWhitespace).reverse⟩

/-- The id-extraction pipeline of `get_top_hn`:
`trim_start_matches("[ ").trim_end_matches(" ]").split(',').map(trim).take(10)`. -/
def parse_top_ids (response : String) : List String :=
  (((splitChar ',' (trimEndMatches " ]" (trimStartMatches "[ " response)).data).map
    fun cs => trimStr (String.mk cs)).take 10)

/-- The `buffer_unordered(10)` concurrency cap of `get_top_hn`. -/
def buffer_cap : Nat := 10

/-- The per-id step of `get_top_hn`'s `filter_map(Result::ok)`: keep the
story when the (fetch, parse) pipeline produced `Ok`, drop an `Err`, and
note that a panicking future never reaches the collection at all. -/
def okStoryOf (oracle : String → StoryOutcome) (id : String) : Option HNStory :=
  match get_story_info (oracle id) with
  | some (Except.ok s) => some s
  | _ => none

/-- `okStoryOf` reformulated directly on the oracle. -/
def okStoryDirect (oracle : String → StoryOutcome) (id : String) : Option HNStory :=
  match oracle id with
  | .story s => some s
  | _ => none

/-- `get_top_hn`: `none` for the whole result models the transport/text
error of the top-stories request propagating via `?`; the outer `Option`
being `none` models the detached task panicking because some story future
hit the `serde` `.unwrap()`.  `sched` lists the indices of the ids in the
order the `buffer_unordered` futures complete; results of individually
failed story fetches are dropped by `filter_map(Result::ok)`. -/
def get_top_hn (top : Option String) (oracle : String → StoryOutcome)
    (sched : List Nat) : Option (Except Unit (List HNStory)) :=
  match top with
  | none => some (Except.error ())
  | some body =>
    let ids := parse_top_ids body
    let fetched := sched.filterMap fun i => ids[i]?
    if (fetched.map fun id => get_story_info (oracle id)).any Option.isNone then none
    else some (Except.ok (fetched.filterMap (okStoryOf oracle)))

/-- Immediate half of `build_hn_command_response` (`!news`): target becomes
the sender, sender becomes `"server"`, content becomes the placeholder. -/
def build_hn_command_response (inbound : ChatMessage) : ChatMessage :=
  { inbound with
    target := inbound.sender
    sender := "server"
    content := truecolor 153 140 139 "Retrieving News ..." }

/-- Detached half of `build_hn_command_response`: the `tokio::spawn`-ed
follow-up publish.  `delayed` is the clone taken after target/sender were
rewritten but before the placeholder content was set; `none` means the
background task panicked and publishes nothing. -/
def hn_background (inbound : ChatMessage) (top : Option String)
    (oracle : String → StoryOutcome) (sched : List Nat) : Option ChatMessage :=
  let delayed : ChatMessage := { inbound with target := inbound.sender, sender := "server" }
  match get_top_hn top oracle sched with
  | none => none
  | some (Except.ok stories) =>
    some { delayed with content := joinSep "\n" (stories.map formatStory) }
  | some (Except.error _) =>
    some { delayed with content := colRed "Couldn't retrieve Hacker News frontpage" }

/-- `ChatMessage::into_response`: the command dispatch, with the registry
threaded explicitly and the provider oracles supplied.  Result: the registry
after the dispatch, the single synchronous response, and the optional
detached `!news` publish.  `none` models the dispatch panicking (which
aborts the session's inbound task). -/
def into_response (inbound : ChatMessage) (users : Registry) (p : Providers)
    (ts : Int) : Option (Registry × ChatMessage × Option ChatMessage) :=
  if inbound.chatroom = "" ∧ ¬ (strStartsWith inbound.content "!join " = true) then
    some (users, build_need_to_join_response inbound, none)
  else if inbound.content = "!user" then
    some (users, build_user_command_response inbound users, none)
  else if inbound.content = "!news" then
    some (users, build_hn_command_response inbound,
      hn_background inbound p.hnTop p.hnStory p.hnSched)
  else if strStartsWith inbound.content "!join " then
    let r := build_user_connection_response inbound.content users inbound ts
    some (r.1, r.2, none)
  else if strStartsWith inbound.content "!dm " then
    (build_direct_message_response inbound.content users inbound ts).map
      fun m => (users, m, none)
  else if strStartsWith inbound.content "!value " then
    (build_binance_command_response inbound.content inbound
      (p.binance (toUpperStr (dropLit "!value " inbound.content)))).map
      fun m => (users, m, none)
  else
    some (users, inbound, none)

/-- The per-subscriber delivery filter of `live_chat`'s `output_stream`:
an empty target is room-broadcast (deliver on matching room), a non-empty
target delivers to the named user and echoes to the author. -/
def delivery_filter (message : ChatMessage) (room user : String) : Bool :=
  if message.target = "" then message.chatroom = room
  else message.target = user || message.sender = user

/-- Per-connection session state (`room`, `user` behind their mutexes in
`live_chat`), written by the inbound loop and read by the outbound loop. -/
structure SessionState where
  room : String
  user : String
deriving DecidableEq

/-- Observable actions of one session's inbound task, in program order:
the registry content at the moment a dispatch returned (the `USERMAP` write
happens inside `into_response`, under the held guard), the write of the
session's tracked room, a publish on the broadcast bus (`TX.send`), and the
registry removal of the disconnect cleanup.  The detached `!news` publish
runs on another task and is modelled separately by `hn_background`. -/
inductive Event where
  | registryMutation (reg : Registry)
  | roomUpdate (room : String)
  | publish (msg : ChatMessage)
  | registryRemove (user : String)
deriving DecidableEq

/-- One iteration of `live_chat`'s inbound loop (server.rs lines 60-71):
set `user` from the sender and `room` from the inbound chatroom, dispatch
under the registry guard, overwrite `room` with the response's chatroom,
then publish the response.  `none` models the dispatch panicking, which
aborts the whole spawned task. -/
def inbound_step (_st : SessionState) (reg : Registry) (p : Providers) (ts : Int)
    (message : ChatMessage) : Option (SessionState × Registry × List Event) :=
  match into_response message reg p ts with
  | none => none
  | some (reg', resp, _delayed) =>
    some ({ user := message.sender, room := resp.chatroom }, reg',
      [Event.registryMutation reg', Event.roomUpdate resp.chatroom, Event.publish resp])

/-- The departure broadcast of `send_disconnect_message`. -/
def mk_disconnect_message (room user : String) (ts : Int) : ChatMessage :=
  { sender := "server"
    timestamp := ts
    chatroom := room
    content := truecolor 153 140 139 ("-- " ++ user ++ " has left.")
    target := "" }

/-- The spawned inbound task of `live_chat`, run to completion over a finite
inbound stream: each message goes through `inbound_step`; when the stream
ends, `remove_user_from_map` and `send_disconnect_message` run once, using
the last known user and room.  A panicking dispatch aborts the task, so the
cleanup never runs: that whole execution is modelled as `none`. -/
def run_session_aux (p : Providers) (ts : Int) :
    SessionState → Registry → List ChatMessage → Option (List Event × Registry)
  | st, reg, [] =>
    some ([Event.registryRemove st.user,
           Event.publish (mk_disconnect_message st.room st.user ts)],
          regRemove reg st.user)
  | st, reg, m :: rest =>
    match inbound_step st reg p ts m with
    | none => none
    | some (st', reg', evs) =>
      (run_session_aux p ts st' reg' rest).map fun r => (evs ++ r.1, r.2)

/-- A full session: `room` and `user` start as `String::new()`. -/
def run_session (reg : Registry) (p : Providers) (ts : Int)
    (msgs : List ChatMessage) : Option (List Event × Registry) :=
  run_session_aux p ts ⟨"", ""⟩ reg msgs

/-- `true` exactly on `Event.registryRemove` events. -/
def isRemoveEv : Event → Bool
  | .registryRemove _ => true
  | _ => false

/-- ANSI stripper (state machine: drop everything from `ESC` up to and
including the terminating `m`), used to compare wire contents with the
spec's plain scenario texts. -/
def stripAnsiAux : Bool → List Char → List Char
  | _, [] => []
  | false, c :: cs => if c = '\x1b' then stripAnsiAux true cs else c :: stripAnsiAux false cs
  | true, c :: cs => if c = 'm' then stripAnsiAux false cs else stripAnsiAux true cs

/-- Remove all ANSI escape sequences from a string. -/
def stripAnsi (s : String) : String := ⟨stripAnsiAux false s.data⟩

/-- `s` embeds an ANSI escape introducer (`ESC [`). -/
def containsEsc (s : String) : Prop :=
  ∃ l r : List Char, s.data = l ++ "\x1b[".data ++ r

/-- A provider pack whose every call fails (adequate wherever the dispatch
under test never consults the providers). -/
def noProviders : Providers :=
  { binance := fun _ => .err
    hnTop := none
    hnStory := fun _ => .transportErr
    hnSched := [] }

lemma splitChar_ne_nil (sep : Char) (cs : List Char) : splitChar sep cs ≠ [] := by
  cases cs with
  | nil => simp [splitChar]
  | cons c t =>
    simp only [splitChar]
    by_cases h : c = sep
    · simp [h]
    · simp only [if_neg h]
      cases splitChar sep t <;> simp

lemma splitChar_length_ge_two (sep : Char) (cs : List Char) (h : sep ∈ cs) :
    2 ≤ (splitChar sep cs).length := by
  induction cs with
  | nil => cases h
  | cons c t ih =>
    simp only [splitChar]
    by_cases hc : c = sep
    · simp only [if_pos hc, List.length_cons]
      have hne := splitChar_ne_nil sep t
      have hpos : 1 ≤ (splitChar sep t).length := by
        cases hsp : splitChar sep t with
        | nil => exact absurd hsp hne
        | cons a l => simp
      omega
    · have hmem : sep ∈ t := by
        rcases List.mem_cons.mp h with h1 | h2
        · exact absurd h1.symm hc
        · exact h2
      simp only [if_neg hc]
      cases hsp : splitChar sep t with
      | nil => exact absurd hsp (splitChar_ne_nil sep t)
      | cons a l =>
        have := ih hmem
        rw [hsp] at this
        simpa using this

lemma strStartsWith_iff (s p : String) :
    strStartsWith s p = true ↔ ∃ t, s.data = p.data ++ t := by
  unfold strStartsWith
  rw [List.isPrefixOf_iff_prefix]
  constructor
  · rintro ⟨t, ht⟩; exact ⟨t, ht.symm⟩
  · rintro ⟨t, ht⟩; exact ⟨t, ht.symm⟩

lemma dropLit_append (lit r : String) : dropLit lit (lit ++ r) = r := by
  show (⟨((lit ++ r).data).drop lit.data.length⟩ : String) = r
  rw [String.data_append, List.drop_left]

lemma regLookup_insert_self (reg : Registry) (k v : String) :
    regLookup (regInsert reg k v) k = some v := by
  simp [regInsert, regLookup]

lemma regLookup_filter_ne (reg : Registry) (k u : String) (h : ¬ u = k) :
    regLookup (reg.filter fun e => e.1 != k) u = regLookup reg u := by
  induction reg with
  | nil => rfl
  | cons e t ih =>
    obtain ⟨a, b⟩ := e
    have hku : ¬ k = u := fun hk => h hk.symm
    by_cases he : a = k
    · have hau : ¬ a = u := fun hau => h (hau ▸ he)
      simp [List.filter_cons, he, regLookup, hau, hku, ih]
    · by_cases hau : a = u
      · simp [List.filter_cons, he, regLookup, hau, h]
      · simp [List.filter_cons, he, regLookup, hau, ih]

lemma regLookup_insert_other (reg : Registry) (k v u : String) (h : ¬ u = k) :
    regLookup (regInsert reg k v) u = regLookup reg u := by
  have hku : ¬ k = u := fun hk => h hk.symm
  simp only [regInsert, regLookup, if_neg hku]
  exact regLookup_filter_ne reg k u h

lemma regLookup_remove_self (reg : Registry) (u : String) :
    regLookup (regRemove reg u) u = none := by
  induction reg with
  | nil => rfl
  | cons e t ih =>
    obtain ⟨a, b⟩ := e
    by_cases he : a = u
    · simpa [regRemove, List.filter_cons, he] using ih
    · simpa [regRemove, List.filter_cons, he, regLookup] using ih

lemma users_in_room_subset_keys (t : Registry) (room u : String)
    (h : u ∈ users_in_room t room) : u ∈ t.map Prod.fst := by
  unfold users_in_room at h
  obtain ⟨e, he, rfl⟩ := List.mem_map.mp h
  exact List.mem_map.mpr ⟨e, List.mem_of_mem_filter he, rfl⟩

lemma users_in_room_cons (a b room : String) (t : Registry) :
    users_in_room ((a, b) :: t) room
      = if b = room then a :: users_in_room t room else users_in_room t room := by
  by_cases hb : b = room <;> simp [users_in_room, List.filter_cons, hb]

lemma mem_users_in_room (users : Registry) (room u : String) (h : regKeysNodup users) :
    u ∈ users_in_room users room ↔ regLookup users u = some room := by
  induction users with
  | nil => simp [users_in_room, regLookup]
  | cons e t ih =>
    obtain ⟨a, b⟩ := e
    have hnd : regKeysNodup t := (List.nodup_cons.mp h).2
    have hnotin : a ∉ t.map Prod.fst := (List.nodup_cons.mp h).1
    rw [users_in_room_cons]
    by_cases hau : a = u
    · subst hau
      have hl : regLookup ((a, b) :: t) a = some b := by simp [regLookup]
      rw [hl]
      by_cases hb : b = room
      · subst hb; simp
      · have hnot : a ∉ users_in_room t room :=
          fun hmem => hnotin (users_in_room_subset_keys t room a hmem)
        rw [if_neg hb]
        constructor
        · intro hmem; exact absurd hmem hnot
        · intro heq; exact absurd (Option.some.injEq b room ▸ heq) hb
    · have hl : regLookup ((a, b) :: t) u = regLookup t u := by simp [regLookup, hau]
      rw [hl]
      by_cases hb : b = room
      · rw [if_pos hb]
        constructor
        · intro hm
          rcases List.mem_cons.mp hm with h1 | h2
          · exact absurd h1.symm hau
          · exact (ih hnd).mp h2
        · intro hr
          exact List.mem_cons.mpr (Or.inr ((ih hnd).mpr hr))
      · rw [if_neg hb]
        exact ih hnd

lemma users_in_room_nodup (users : Registry) (room : String) (h : regKeysNodup users) :
    (users_in_room users room).Nodup := by
  have hsub : List.Sublist (users.filter fun e => e.2 == room) users :=
    List.filter_sublist users
  exact h.sublist (hsub.map Prod.fst)

lemma range_filterMap_getElem {α : Type} (l : List α) :
    (List.range l.length).filterMap (fun i => l[i]?) = l := by
  induction l with
  | nil => rfl
  | cons a t ih =>
    rw [List.length_cons, List.range_succ_eq_map, List.filterMap_cons]
    simp only [List.getElem?_cons_zero, List.filterMap_map]
    have hc : ((fun i => (a :: t)[i]?) ∘ Nat.succ) = fun i => t[i]? := by
      funext i
      simp [Function.comp, List.getElem?_cons_succ]
    rw [hc, ih]

lemma sched_perm_fetched {α : Type} (l : List α) (sched : List Nat)
    (h : sched.Perm (List.range l.length)) :
    (sched.filterMap fun i => l[i]?).Perm l := by
  have hp := h.filterMap (fun i => l[i]?)
  rw [range_filterMap_getElem] at hp
  exact hp

lemma containsEsc_append_left (a b : String) (h : containsEsc a) : containsEsc (a ++ b) := by
  obtain ⟨l, r, hd⟩ := h
  exact ⟨l, r ++ b.data, by rw [String.data_append, hd]; simp⟩

lemma containsEsc_append_right (a b : String) (h : containsEsc b) : containsEsc (a ++ b) := by
  obtain ⟨l, r, hd⟩ := h
  exact ⟨a.data ++ l, r, by rw [String.data_append, hd]; simp⟩

lemma containsEsc_head_true : containsEsc "\x1b[38;2;" :=
  ⟨[], "38;2;".data, by decide⟩

lemma containsEsc_head_yellow : containsEsc "\x1b[93m" :=
  ⟨[], "93m".data, by decide⟩

lemma containsEsc_head_cyan : containsEsc "\x1b[96m" :=
  ⟨[], "96m".data, by decide⟩

lemma containsEsc_head_red : containsEsc "\x1b[31m" :=
  ⟨[], "31m".data, by decide⟩

lemma containsEsc_truecolor (r g b : Nat) (s : String) : containsEsc (truecolor r g b s) := by
  unfold truecolor
  repeat apply containsEsc_append_left
  exact containsEsc_head_true

lemma containsEsc_bright_yellow (s : String) : containsEsc (bright_yellow s) := by
  unfold bright_yellow
  repeat apply containsEsc_append_left
  exact containsEsc_head_yellow

lemma containsEsc_bright_cyan (s : String) : containsEsc (bright_cyan s) := by
  unfold bright_cyan
  repeat apply containsEsc_append_left
  exact containsEsc_head_cyan

lemma containsEsc_colRed (s : String) : containsEsc (colRed s) := by
  unfold colRed
  repeat apply containsEsc_append_left
  exact containsEsc_head_red

lemma inbound_step_shape (st : SessionState) (reg : Registry) (p : Providers) (ts : Int)
    (m : ChatMessage) (st' : SessionState) (reg' : Registry) (evs : List Event)
    (h : inbound_step st reg p ts m = some (st', reg', evs)) :
    ∃ resp : ChatMessage,
      evs = [Event.registryMutation reg', Event.roomUpdate resp.chatroom, Event.publish resp]
        ∧ st' = ⟨resp.chatroom, m.sender⟩ := by
  unfold inbound_step at h
  cases hir : into_response m reg p ts with
  | none => rw [hir] at h; cases h
  | some val =>
    obtain ⟨r1, resp, del⟩ := val
    rw [hir] at h
    simp only [Option.some.injEq, Prod.mk.injEq] at h
    obtain ⟨h1, h2, h3⟩ := h
    subst h2
    exact ⟨resp, h3.symm, h1.symm⟩

/-- C1: the per-subscriber delivery filter delivers a room-broadcast
(`target == ""`) iff the message's chatroom equals the session's current
room, and a targeted message (`target != ""`) iff the target or the sender
equals the session's current user. -/
theorem C1_delivery_filter (message : ChatMessage) (room user : String) :
    (message.target = "" →
      (delivery_filter message room user = true ↔ message.chatroom = room))
    ∧ (message.target ≠ "" →
      (delivery_filter message room user = true ↔
        (message.target = user ∨ message.sender = user))) := by
  constructor
  · intro ht
    simp [delivery_filter, ht]
  · intro ht
    simp [delivery_filter, ht]

/-- Witness for C1 at concrete inputs: a room broadcast reaches a session in
the same room, and a DM reaches the session of the targeted user. -/
theorem C1_delivery_filter_witness :
    delivery_filter ⟨"alice", 0, "lobby", "hi", ""⟩ "lobby" "carol" = true
    ∧ delivery_filter ⟨"alice", 0, "lobby", "hello", "bob"⟩ "elsewhere" "bob" = true :=
  ⟨((C1_delivery_filter ⟨"alice", 0, "lobby", "hi", ""⟩ "lobby" "carol").1 rfl).mpr rfl,
   ((C1_delivery_filter ⟨"alice", 0, "lobby", "hello", "bob"⟩ "elsewhere" "bob").2
      (by decide)).mpr (Or.inl rfl)⟩

/-- C2 (code bug): a transport error and a non-2xx status on `!value` do
degrade to server-authored error text, but an unparsable 2xx payload makes
`build_binance_command_response` panic (`serde_json::from_str(..).unwrap()`),
modelled as `none` — the session-processing task aborts instead of sending
an error message; likewise an unparsable story payload makes the `!news`
background task panic, so no follow-up message is published. -/
theorem C2_provider_failure_modes :
    build_binance_command_response "!value btc" ⟨"alice", 0, "lobby", "!value btc", ""⟩ .err
      = some ⟨"server", 0, "lobby",
          colRed "Something went wrong when trying to retrieve currency information", ""⟩
    ∧ build_binance_command_response "!value btc" ⟨"alice", 0, "lobby", "!value btc", ""⟩
        (.ok 404 (some "x"))
      = some ⟨"server", 0, "lobby",
          colRed "Error requesting conversion rate for" ++ " " ++ bright_yellow "BTC", ""⟩
    ∧ build_binance_command_response "!value btc" ⟨"alice", 0, "lobby", "!value btc", ""⟩
        (.ok 200 (some "oops")) = none
    ∧ get_story_info .parseFail = none
    ∧ hn_background ⟨"alice", 0, "lobby", "!news", ""⟩ (some "[ 1 ]") (fun _ => .parseFail) [0]
      = none :=
  ⟨by decide, by decide, by decide, rfl, by decide⟩

/-- C6 counterexample: the join announcement's wire content is the
ANSI-colored string, not the plain text of the claim. -/
theorem C6_counterexample :
    (build_user_connection_response "!join lobby" [] ⟨"alice", 0, "", "!join lobby", ""⟩ 0).2.content
      ≠ "-- alice has joined lobby" := by decide

/-- C6 (amended): `!join <room>` inserts or overwrites the sender's registry
entry to the joined room, leaves every other entry unchanged, and responds
with sender `"server"`, empty target, chatroom = the joined room, and
content = the ANSI-truecolor-wrapped `"-- SENDER has joined ROOM"` (equal to
the claim's plain text only after stripping escapes, see C10). -/
theorem C6_join_response (r : String) (users : Registry) (inbound : ChatMessage) (ts : Int)
    (_hr : r ≠ "") :
    regLookup (build_user_connection_response ("!join " ++ r) users inbound ts).1
        inbound.sender = some r
    ∧ (∀ u, u ≠ inbound.sender →
        regLookup (build_user_connection_response ("!join " ++ r) users inbound ts).1 u
          = regLookup users u)
    ∧ (build_user_connection_response ("!join " ++ r) users inbound ts).2
        = ⟨"server", ts, r,
           truecolor 153 140 139 ("-- " ++ inbound.sender ++ " has joined " ++ r), ""⟩ := by
  have hdrop : dropLit "!join " ("!join " ++ r) = r := dropLit_append "!join " r
  unfold build_user_connection_response
  rw [hdrop]
  exact ⟨regLookup_insert_self users inbound.sender r,
         fun u hu => regLookup_insert_other users inbound.sender r u hu,
         rfl⟩

/-- Witness for C6 at concrete inputs. -/
theorem C6_join_response_witness :
    regLookup (build_user_connection_response ("!join " ++ "lobby") []
        ⟨"alice", 7, "", "!join lobby", ""⟩ 7).1 "alice" = some "lobby" :=
  (C6_join_response "lobby" [] ⟨"alice", 7, "", "!join lobby", ""⟩ 7 (by decide)).1

/-- C7: the `!user` response is addressed to the caller (target = sender,
sender = "server"), and the username list embedded in its content is exactly
the set of registered users whose registry room equals the caller's room,
without duplicates (given the registry's key-uniqueness invariant). -/
theorem C7_user_list (inbound : ChatMessage) (users : Registry) (h : regKeysNodup users) :
    (build_user_command_response inbound users).target = inbound.sender
    ∧ (build_user_command_response inbound users).sender = "server"
    ∧ (build_user_command_response inbound users).content
        = "-- Users in " ++ bright_cyan inbound.chatroom ++ ": "
          ++ bright_yellow (joinSep ", " (users_in_room users inbound.chatroom))
    ∧ (users_in_room users inbound.chatroom).Nodup
    ∧ (∀ u, u ∈ users_in_room users inbound.chatroom
        ↔ regLookup users u = some inbound.chatroom) :=
  ⟨rfl, rfl, rfl, users_in_room_nodup users inbound.chatroom h,
   fun u => mem_users_in_room users inbound.chatroom u h⟩

/-- Witness for C7: with alice/bob in lobby and carol in attic, alice is
listed for a `!user` issued from lobby. -/
theorem C7_user_list_witness :
    "alice" ∈ users_in_room [("alice", "lobby"), ("bob", "lobby"), ("carol", "attic")] "lobby" :=
  ((C7_user_list ⟨"bob", 0, "lobby", "!user", ""⟩
      [("alice", "lobby"), ("bob", "lobby"), ("carol", "attic")]
      (by unfold regKeysNodup; decide)).2.2.2.2 "alice").mpr (by decide)

/-- C3 counterexample: `!dm bob` (a single token after the command word)
with `bob` registered produces an ordinary direct message with empty content
addressed to `bob` — not a usage-error response routed back to the sender. -/
theorem C3_counterexample :
    build_direct_message_response "!dm bob" [("bob", "lobby")]
        ⟨"alice", 0, "lobby", "!dm bob", ""⟩ 0
      = some ⟨"alice", 0, "lobby", "", "bob"⟩
    ∧ ("bob" : String) ≠ "alice" := by
  exact ⟨by decide, by decide⟩

theorem C3_dm_containment (s : String) (users : Registry) (inbound : ChatMessage) (ts : Int)
    (st : SessionState) (reg : Registry) (p : Providers)
    (h : strStartsWith s "!dm " = true) :
    (∃ m, build_direct_message_response s users inbound ts = some m
      ∧ ((m.sender = "server" ∧ m.target = inbound.sender)
         ∨ (m.sender = inbound.sender ∧ regContains users m.target = true)))
    ∧ (inbound.content = s → inbound_step st reg p ts inbound ≠ none) := by
  obtain ⟨t, ht⟩ := (strStartsWith_iff s "!dm ").mp h
  have ht' : s.data = '!' :: 'd' :: 'm' :: ' ' :: t := ht
  have hsp : ' ' ∈ s.data := by rw [ht']; simp
  have hlen : 2 ≤ (splitChar ' ' s.data).length := splitChar_length_ge_two ' ' s.data hsp
  have hlen2 : 2 ≤ ((splitChar ' ' s.data).map fun l => String.mk l).length := by
    rw [List.length_map]; exact hlen
  have h1lt : 1 < ((splitChar ' ' s.data).map fun l => String.mk l).length := hlen2
  obtain ⟨tu, htu⟩ : ∃ tu, ((splitChar ' ' s.data).map fun l => String.mk l)[1]? = some tu :=
    ⟨_, List.getElem?_eq_getElem h1lt⟩
  have hgen : ∀ us : Registry, ∃ m, build_direct_message_response s us inbound ts = some m
      ∧ ((m.sender = "server" ∧ m.target = inbound.sender)
         ∨ (m.sender = inbound.sender ∧ regContains us m.target = true)) := by
    intro us
    simp only [build_direct_message_response, htu]
    rw [if_neg (Nat.not_lt.mpr hlen2)]
    by_cases hc : regContains us tu = true
    · rw [if_neg (by simp [hc])]
      exact ⟨_, rfl, Or.inr ⟨rfl, hc⟩⟩
    · rw [if_pos (by simp [Bool.not_eq_true] at hc; simp [hc])]
      exact ⟨_, rfl, Or.inl ⟨rfl, rfl⟩⟩
  refine ⟨hgen users, ?_⟩
  intro hcs
  unfold inbound_step
  unfold into_response
  by_cases hroom : inbound.chatroom = "" ∧ ¬ (strStartsWith inbound.content "!join " = true)
  · rw [if_pos hroom]; simp
  · rw [if_neg hroom]
    have hne_user : ¬ inbound.content = "!user" := by
      intro he; rw [hcs] at he; rw [he] at ht'; simp at ht'
    have hne_news : ¬ inbound.content = "!news" := by
      intro he; rw [hcs] at he; rw [he] at ht'; simp at ht'
    have hne_join : ¬ (strStartsWith inbound.content "!join " = true) := by
      intro he
      rw [hcs] at he
      obtain ⟨t2, ht2⟩ := (strStartsWith_iff s "!join ").mp he
      rw [ht'] at ht2
      simp at ht2
    have hdm : strStartsWith inbound.content "!dm " = true := by rw [hcs]; exact h
    rw [if_neg hne_user, if_neg hne_news, if_neg hne_join, if_pos hdm]
    obtain ⟨m2, hm2, _⟩ := hgen reg
    rw [hcs, hm2]
    simp


/-- Witness for C3 at concrete inputs. -/
theorem C3_dm_containment_witness :
    (∃ m, build_direct_message_response "!dm bob" [("bob", "lobby")]
        ⟨"alice", 0, "lobby", "!dm bob", ""⟩ 0 = some m
      ∧ ((m.sender = "server" ∧ m.target = "alice")
         ∨ (m.sender = "alice" ∧ regContains [("bob", "lobby")] m.target = true)))
    ∧ (ChatMessage.content ⟨"alice", 0, "lobby", "!dm bob", ""⟩ = "!dm bob" →
        inbound_step ⟨"", ""⟩ [] noProviders 0 ⟨"alice", 0, "lobby", "!dm bob", ""⟩ ≠ none) :=
  C3_dm_containment "!dm bob" [("bob", "lobby")] ⟨"alice", 0, "lobby", "!dm bob", ""⟩ 0
    ⟨"", ""⟩ [] noProviders (by decide)

lemma index_three_cases {α : Type} (a b c x : α) (i : Nat)
    (h : ([a, b, c] : List α)[i]? = some x) :
    (i = 0 ∧ x = a) ∨ (i = 1 ∧ x = b) ∨ (i = 2 ∧ x = c) := by
  match i with
  | 0 =>
    refine Or.inl ⟨rfl, ?_⟩
    have hx : some a = some x := h
    exact (Option.some.injEq a x ▸ hx).symm
  | 1 =>
    refine Or.inr (Or.inl ⟨rfl, ?_⟩)
    have hx : some b = some x := h
    exact (Option.some.injEq b x ▸ hx).symm
  | 2 =>
    refine Or.inr (Or.inr ⟨rfl, ?_⟩)
    have hx : some c = some x := h
    exact (Option.some.injEq c x ▸ hx).symm
  | n + 3 =>
    have hn : ([a, b, c] : List α)[n + 3]? = none := by
      apply List.getElem?_eq_none
      simp
    rw [hn] at h
    cases h

/-- C5: a `!join` dispatch mutates the registry strictly before the join
announcement is published: within the inbound iteration's event trace the
registry-mutation event precedes the publish event, and the registry at
that moment already maps the sender to the announced room. -/
theorem C5_join_before_publish (st : SessionState) (reg : Registry) (p : Providers)
    (ts : Int) (m : ChatMessage) (r : String) (hc : m.content = "!join " ++ r) :
    ∃ reg' resp st' evs,
      inbound_step st reg p ts m = some (st', reg', evs)
      ∧ regLookup reg' m.sender = some r
      ∧ resp.chatroom = r
      ∧ evs = [Event.registryMutation reg', Event.roomUpdate r, Event.publish resp]
      ∧ (∀ i j : Nat, evs[i]? = some (Event.registryMutation reg')
          → evs[j]? = some (Event.publish resp) → i < j) := by
  have hjoin : strStartsWith m.content "!join " = true :=
    (strStartsWith_iff m.content "!join ").mpr ⟨r.data, by rw [hc, String.data_append]⟩
  have hd : m.content.data = '!' :: 'j' :: 'o' :: 'i' :: 'n' :: ' ' :: r.data := by
    rw [hc]; exact String.data_append "!join " r
  have hne_user : ¬ m.content = "!user" := by
    intro he; rw [he] at hd; simp at hd
  have hne_news : ¬ m.content = "!news" := by
    intro he; rw [he] at hd; simp at hd
  have hnr : ¬ (m.chatroom = "" ∧ ¬ (strStartsWith m.content "!join " = true)) := by
    rintro ⟨_, hn⟩; exact hn hjoin
  have hbuild : build_user_connection_response ("!join " ++ r) reg m ts
      = (regInsert reg m.sender r,
         ⟨"server", ts, r, truecolor 153 140 139 ("-- " ++ m.sender ++ " has joined " ++ r), ""⟩) := by
    unfold build_user_connection_response
    rw [dropLit_append]
  unfold inbound_step into_response
  rw [if_neg hnr, if_neg hne_user, if_neg hne_news, if_pos hjoin, hc, hbuild]
  refine ⟨regInsert reg m.sender r,
          ⟨"server", ts, r, truecolor 153 140 139 ("-- " ++ m.sender ++ " has joined " ++ r), ""⟩,
          ⟨r, m.sender⟩,
          [Event.registryMutation (regInsert reg m.sender r), Event.roomUpdate r,
           Event.publish ⟨"server", ts, r,
             truecolor 153 140 139 ("-- " ++ m.sender ++ " has joined " ++ r), ""⟩],
          rfl, regLookup_insert_self reg m.sender r, rfl, rfl, ?_⟩
  intro i j hi hj
  rcases index_three_cases _ _ _ _ i hi with ⟨h0, _⟩ | ⟨_, hx⟩ | ⟨_, hx⟩
  · rcases index_three_cases _ _ _ _ j hj with ⟨_, hy⟩ | ⟨_, hy⟩ | ⟨h2, _⟩
    · cases hy
    · cases hy
    · omega
  · cases hx
  · cases hx

/-- Witness for C5 at a concrete join. -/
theorem C5_join_before_publish_witness :
    ∃ reg' resp st' evs,
      inbound_step ⟨"", ""⟩ [] noProviders 0 ⟨"alice", 0, "", "!join lobby", ""⟩
        = some (st', reg', evs)
      ∧ regLookup reg' "alice" = some "lobby"
      ∧ resp.chatroom = "lobby"
      ∧ evs = [Event.registryMutation reg', Event.roomUpdate "lobby", Event.publish resp]
      ∧ (∀ i j : Nat, evs[i]? = some (Event.registryMutation reg')
          → evs[j]? = some (Event.publish resp) → i < j) :=
  C5_join_before_publish ⟨"", ""⟩ [] noProviders 0 ⟨"alice", 0, "", "!join lobby", ""⟩
    "lobby" (by decide)

/-- C9 counterexample: at a concrete `!join` iteration the room update
(trace index 1) happens before the publish (trace index 2); the claim's
publish-then-update order occurs nowhere in the trace. -/
theorem C9_counterexample :
    inbound_step ⟨"", ""⟩ [] noProviders 0 ⟨"alice", 0, "", "!join lobby", ""⟩
      = some (⟨"lobby", "alice"⟩, [("alice", "lobby")],
          [Event.registryMutation [("alice", "lobby")],
           Event.roomUpdate "lobby",
           Event.publish ⟨"server", 0, "lobby",
             truecolor 153 140 139 "-- alice has joined lobby", ""⟩])
    ∧ ¬ (∃ i j : Nat, i < j
          ∧ [Event.registryMutation [("alice", "lobby")],
             Event.roomUpdate "lobby",
             Event.publish ⟨"server", 0, "lobby",
               truecolor 153 140 139 "-- alice has joined lobby", ""⟩][i]?
              = some (Event.publish ⟨"server", 0, "lobby",
                  truecolor 153 140 139 "-- alice has joined lobby", ""⟩)
          ∧ [Event.registryMutation [("alice", "lobby")],
             Event.roomUpdate "lobby",
             Event.publish ⟨"server", 0, "lobby",
               truecolor 153 140 139 "-- alice has joined lobby", ""⟩][j]?
              = some (Event.roomUpdate "lobby")) := by
  refine ⟨by decide, ?_⟩
  rintro ⟨i, j, hij, hi, hj⟩
  rcases index_three_cases _ _ _ _ i hi with ⟨_, hx⟩ | ⟨_, hx⟩ | ⟨h2, _⟩
  · cases hx
  · cases hx
  · rcases index_three_cases _ _ _ _ j hj with ⟨_, hy⟩ | ⟨h1, _⟩ | ⟨_, hy⟩
    · cases hy
    · omega
    · cases hy

/-- C9 (amended): on each inbound message whose dispatch returns (does not
panic), the handler updates the session's `currentRoom` to the response's
`chatroom` field and then publishes the response — the update strictly
precedes the publish, and the new room is taken from the response message,
not from the parsed command text. -/
theorem C9_room_update (st : SessionState) (reg : Registry) (p : Providers) (ts : Int)
    (m : ChatMessage) (st' : SessionState) (reg' : Registry) (evs : List Event)
    (h : inbound_step st reg p ts m = some (st', reg', evs)) :
    ∃ resp : ChatMessage,
      evs = [Event.registryMutation reg', Event.roomUpdate resp.chatroom, Event.publish resp]
      ∧ st'.room = resp.chatroom
      ∧ (∀ i j : Nat, evs[i]? = some (Event.roomUpdate resp.chatroom)
          → evs[j]? = some (Event.publish resp) → i < j) := by
  obtain ⟨resp, hevs, hst⟩ := inbound_step_shape st reg p ts m st' reg' evs h
  refine ⟨resp, hevs, by rw [hst], ?_⟩
  intro i j hi hj
  rw [hevs] at hi hj
  rcases index_three_cases _ _ _ _ i hi with ⟨_, hx⟩ | ⟨h1, _⟩ | ⟨_, hx⟩
  · cases hx
  · rcases index_three_cases _ _ _ _ j hj with ⟨_, hy⟩ | ⟨_, hy⟩ | ⟨h2, _⟩
    · cases hy
    · cases hy
    · omega
  · cases hx

/-- Witness for C9 at a concrete `!join` iteration. -/
theorem C9_room_update_witness :
    ∃ resp : ChatMessage,
      [Event.registryMutation [("alice", "lobby")],
       Event.roomUpdate "lobby",
       Event.publish ⟨"server", 0, "lobby",
         truecolor 153 140 139 "-- alice has joined lobby", ""⟩]
        = [Event.registryMutation [("alice", "lobby")],
           Event.roomUpdate resp.chatroom, Event.publish resp]
      ∧ SessionState.room ⟨"lobby", "alice"⟩ = resp.chatroom
      ∧ (∀ i j : Nat,
          [Event.registryMutation [("alice", "lobby")],
           Event.roomUpdate "lobby",
           Event.publish ⟨"server", 0, "lobby",
             truecolor 153 140 139 "-- alice has joined lobby", ""⟩][i]?
            = some (Event.roomUpdate resp.chatroom)
          → [Event.registryMutation [("alice", "lobby")],
             Event.roomUpdate "lobby",
             Event.publish ⟨"server", 0, "lobby",
               truecolor 153 140 139 "-- alice has joined lobby", ""⟩][j]?
              = some (Event.publish resp) → i < j) :=
  C9_room_update ⟨"", ""⟩ [] noProviders 0 ⟨"alice", 0, "", "!join lobby", ""⟩
    ⟨"lobby", "alice"⟩ [("alice", "lobby")]
    [Event.registryMutation [("alice", "lobby")],
     Event.roomUpdate "lobby",
     Event.publish ⟨"server", 0, "lobby",
       truecolor 153 140 139 "-- alice has joined lobby", ""⟩]
    (by decide)

lemma run_session_aux_cleanup (p : Providers) (ts : Int) (msgs : List ChatMessage) :
    ∀ (st : SessionState) (reg : Registry) (trace : List Event) (regF : Registry),
      run_session_aux p ts st reg msgs = some (trace, regF) →
      ∃ u r pre regL,
        trace = pre ++ [Event.registryRemove u,
                        Event.publish (mk_disconnect_message r u ts)]
        ∧ pre.filter isRemoveEv = []
        ∧ regF = regRemove regL u := by
  induction msgs with
  | nil =>
    intro st reg trace regF h
    simp only [run_session_aux, Option.some.injEq, Prod.mk.injEq] at h
    obtain ⟨h1, h2⟩ := h
    exact ⟨st.user, st.room, [], reg, by rw [← h1]; rfl, rfl, h2.symm⟩
  | cons m rest ih =>
    intro st reg trace regF h
    simp only [run_session_aux] at h
    cases hstep : inbound_step st reg p ts m with
    | none => rw [hstep] at h; cases h
    | some v =>
      obtain ⟨st', reg', evs⟩ := v
      rw [hstep] at h
      have h' : Option.map (fun q => (evs ++ q.1, q.2)) (run_session_aux p ts st' reg' rest)
          = some (trace, regF) := h
      cases hrec : run_session_aux p ts st' reg' rest with
      | none => rw [hrec] at h'; cases h'
      | some w =>
        obtain ⟨t2, regF2⟩ := w
        rw [hrec] at h'
        simp only [Option.map, Option.some.injEq, Prod.mk.injEq] at h' 
        obtain ⟨h1, h2⟩ := h'
        obtain ⟨u, r, pre, regL, ht, hpre, hregF⟩ := ih st' reg' t2 regF2 hrec
        obtain ⟨resp, hevs, _⟩ := inbound_step_shape st reg p ts m st' reg' evs hstep
        refine ⟨u, r, evs ++ pre, regL, ?_, ?_, ?_⟩
        · rw [← h1, ht, List.append_assoc]
        · rw [List.filter_append, hpre, List.append_nil, hevs]
          rfl
        · rw [← h2, hregF]

/-- C8 (amended): when a session whose dispatches all returned (no panic in
a `!value` dispatch — see C2) reaches the end of its inbound stream, the
cleanup removes the user's registry entry and publishes exactly one
departure message: the trace contains exactly one registry-removal event,
ends with that removal followed by the departure publish, the final
registry no longer maps the user, and the departure message has sender
"server", empty target, the session's last known room, and the
ANSI-truecolor-wrapped content "-- USER has left." (equal to the claim's
plain text only after stripping escapes, see C10). -/
theorem C8_disconnect_cleanup (p : Providers) (ts : Int) (msgs : List ChatMessage)
    (reg : Registry) (trace : List Event) (regF : Registry)
    (h : run_session reg p ts msgs = some (trace, regF)) :
    ∃ u r pre,
      trace = pre ++ [Event.registryRemove u,
                      Event.publish (mk_disconnect_message r u ts)]
      ∧ (trace.filter isRemoveEv).length = 1
      ∧ regLookup regF u = none
      ∧ (mk_disconnect_message r u ts).sender = "server"
      ∧ (mk_disconnect_message r u ts).target = ""
      ∧ (mk_disconnect_message r u ts).chatroom = r
      ∧ (mk_disconnect_message r u ts).content
          = truecolor 153 140 139 ("-- " ++ u ++ " has left.") := by
  obtain ⟨u, r, pre, regL, ht, hpre, hregF⟩ :=
    run_session_aux_cleanup p ts msgs ⟨"", ""⟩ reg trace regF h
  refine ⟨u, r, pre, ht, ?_, ?_, rfl, rfl, rfl, rfl⟩
  · rw [ht, List.filter_append, hpre]
    rfl
  · rw [hregF]
    exact regLookup_remove_self regL u

/-- C8 counterexample: the departure message's wire content is the
ANSI-colored string, not the claim's plain "-- USER has left.". -/
theorem C8_counterexample :
    (mk_disconnect_message "lobby" "alice" 0).content ≠ "-- alice has left." := by decide

/-- Witness for C8 on a concrete one-join session. -/
theorem C8_disconnect_cleanup_witness :
    ∃ u r pre,
      ([Event.registryMutation [("alice", "lobby")],
        Event.roomUpdate "lobby",
        Event.publish ⟨"server", 0, "lobby",
          truecolor 153 140 139 "-- alice has joined lobby", ""⟩,
        Event.registryRemove "alice",
        Event.publish (mk_disconnect_message "lobby" "alice" 0)] : List Event)
        = pre ++ [Event.registryRemove u,
                  Event.publish (mk_disconnect_message r u 0)]
      ∧ (([Event.registryMutation [("alice", "lobby")],
           Event.roomUpdate "lobby",
           Event.publish ⟨"server", 0, "lobby",
             truecolor 153 140 139 "-- alice has joined lobby", ""⟩,
           Event.registryRemove "alice",
           Event.publish (mk_disconnect_message "lobby" "alice" 0)] : List Event).filter
            isRemoveEv).length = 1
      ∧ regLookup [] u = none
      ∧ (mk_disconnect_message r u 0).sender = "server"
      ∧ (mk_disconnect_message r u 0).target = ""
      ∧ (mk_disconnect_message r u 0).chatroom = r
      ∧ (mk_disconnect_message r u 0).content
          = truecolor 153 140 139 ("-- " ++ u ++ " has left.") :=
  C8_disconnect_cleanup noProviders 0 [⟨"alice", 0, "", "!join lobby", ""⟩] []
    [Event.registryMutation [("alice", "lobby")],
     Event.roomUpdate "lobby",
     Event.publish ⟨"server", 0, "lobby",
       truecolor 153 140 139 "-- alice has joined lobby", ""⟩,
     Event.registryRemove "alice",
     Event.publish (mk_disconnect_message "lobby" "alice" 0)]
    [] (by decide)

/-- C4 counterexample: the immediate placeholder is the ANSI-colored
`"Retrieving News ..."` (note the space), not the claim's plain
`"Retrieving News..."`; and `buffer_unordered` yields per-story results in
completion order, so with completion order `[1, 0]` over two ranked ids the
published list is the reverse of the provider's ranking. -/
theorem C4_counterexample :
    (build_hn_command_response ⟨"alice", 0, "lobby", "!news", ""⟩).content
      ≠ "Retrieving News..."
    ∧ List.Perm [1, 0] (List.range (parse_top_ids "[ 1, 2 ]").length)
    ∧ get_top_hn (some "[ 1, 2 ]") (fun id => if id = "1"
        then .story ⟨some "ann", 5, 0, "A", some "u1"⟩
        else .story ⟨some "ben", 3, 0, "B", some "u2"⟩) [1, 0]
      = some (Except.ok [⟨some "ben", 3, 0, "B", some "u2"⟩,
                         ⟨some "ann", 5, 0, "A", some "u1"⟩])
    ∧ ([(⟨some "ben", 3, 0, "B", some "u2"⟩ : HNStory),
        ⟨some "ann", 5, 0, "A", some "u1"⟩]
        ≠ [⟨some "ann", 5, 0, "A", some "u1"⟩,
           ⟨some "ben", 3, 0, "B", some "u2"⟩]) := by
  refine ⟨by decide, by decide, by decide, by decide⟩

lemma mem_fetched_mem_ids (ids : List String) (sched : List Nat) (id : String)
    (h : id ∈ sched.filterMap fun i => ids[i]?) : id ∈ ids := by
  obtain ⟨i, _, hi⟩ := List.mem_filterMap.mp h
  exact List.getElem?_mem hi

lemma story_collect_eq (oracle : String → StoryOutcome) :
    okStoryOf oracle = okStoryDirect oracle := by
  funext id
  cases ho : oracle id <;> simp [okStoryOf, okStoryDirect, get_story_info, ho]

/-- C4 (amended): the immediate `!news` response rewrites target to the
sender, sender to "server", and content to the colored placeholder
`"Retrieving News ..."`; the background job takes at most the top 10 ids in
provider order, the `buffer_unordered` cap is 10, and — provided no story
payload is unparsable (otherwise the task panics, see C2) — it publishes a
second message to the original sender whose content lists, in completion
order, exactly the multiset of successfully fetched stories (individually
failed fetches silently dropped, provider ranking not preserved); if the
top-stories fetch itself fails, a single error-text message is published
instead. -/
theorem C4_news_flow (inbound : ChatMessage) (body : String)
    (oracle : String → StoryOutcome) (sched : List Nat)
    (hperm : List.Perm sched (List.range (parse_top_ids body).length))
    (hok : ∀ id ∈ parse_top_ids body, oracle id ≠ .parseFail) :
    (build_hn_command_response inbound)
      = { inbound with
          target := inbound.sender
          sender := "server"
          content := truecolor 153 140 139 "Retrieving News ..." }
    ∧ (parse_top_ids body).length ≤ 10
    ∧ buffer_cap = 10
    ∧ (∃ delayed stories,
        hn_background inbound (some body) oracle sched = some delayed
        ∧ delayed.target = inbound.sender
        ∧ delayed.sender = "server"
        ∧ get_top_hn (some body) oracle sched = some (Except.ok stories)
        ∧ delayed.content = joinSep "\n" (stories.map formatStory)
        ∧ List.Perm stories ((parse_top_ids body).filterMap (okStoryDirect oracle)))
    ∧ hn_background inbound none oracle sched
        = some { inbound with
            target := inbound.sender
            sender := "server"
            content := colRed "Couldn't retrieve Hacker News frontpage" } := by
  have hnone : ((sched.filterMap fun i => (parse_top_ids body)[i]?).map
      fun id => get_story_info (oracle id)).any Option.isNone = false := by
    rw [List.any_eq_false]
    intro x hx
    obtain ⟨id, hid, hxid⟩ := List.mem_map.mp hx
    have hmem : id ∈ parse_top_ids body := mem_fetched_mem_ids _ _ _ hid
    have hnp := hok id hmem
    rw [← hxid]
    cases ho : oracle id
    · simp [get_story_info]
    · exact absurd ho hnp
    · simp [get_story_info]
  have hdef : get_top_hn (some body) oracle sched
      = if ((sched.filterMap fun i => (parse_top_ids body)[i]?).map
            fun id => get_story_info (oracle id)).any Option.isNone = true
        then none
        else some (Except.ok ((sched.filterMap fun i =>
          (parse_top_ids body)[i]?).filterMap (okStoryOf oracle))) := rfl
  have hagg : get_top_hn (some body) oracle sched
      = some (Except.ok ((sched.filterMap fun i =>
          (parse_top_ids body)[i]?).filterMap (okStoryDirect oracle))) := by
    rw [hdef, hnone, story_collect_eq]
    simp
  refine ⟨rfl, ?_, rfl, ?_, rfl⟩
  · unfold parse_top_ids
    rw [List.length_take]
    exact Nat.min_le_left 10 _
  · refine ⟨{ inbound with
        target := inbound.sender
        sender := "server"
        content := joinSep "\n" (((sched.filterMap fun i =>
          (parse_top_ids body)[i]?).filterMap (okStoryDirect oracle)).map formatStory) },
      (sched.filterMap fun i => (parse_top_ids body)[i]?).filterMap (okStoryDirect oracle),
      ?_, rfl, rfl, hagg, rfl, ?_⟩
    · unfold hn_background
      rw [hagg]
    · exact (sched_perm_fetched (parse_top_ids body) sched hperm).filterMap _

/-- Concrete story oracle for the C4 witness: id "1" ranks first. -/
def newsOracle : String → StoryOutcome := fun id =>
  if id = "1" then .story ⟨some "ann", 5, 0, "A", some "u1"⟩
  else .story ⟨some "ben", 3, 0, "B", some "u2"⟩

/-- Witness for C4 at a concrete two-story fetch with completion order
`[1, 0]`. -/
theorem C4_news_flow_witness :
    build_hn_command_response ⟨"alice", 0, "lobby", "!news", ""⟩
      = ⟨"server", 0, "lobby", truecolor 153 140 139 "Retrieving News ...", "alice"⟩
    ∧ (parse_top_ids "[ 1, 2 ]").length ≤ 10
    ∧ buffer_cap = 10
    ∧ (∃ delayed stories,
        hn_background ⟨"alice", 0, "lobby", "!news", ""⟩ (some "[ 1, 2 ]") newsOracle [1, 0]
          = some delayed
        ∧ delayed.target = "alice"
        ∧ delayed.sender = "server"
        ∧ get_top_hn (some "[ 1, 2 ]") newsOracle [1, 0] = some (Except.ok stories)
        ∧ delayed.content = joinSep "\n" (stories.map formatStory)
        ∧ List.Perm stories ((parse_top_ids "[ 1, 2 ]").filterMap (okStoryDirect newsOracle)))
    ∧ hn_background ⟨"alice", 0, "lobby", "!news", ""⟩ none newsOracle [1, 0]
        = some ⟨"server", 0, "lobby", colRed "Couldn't retrieve Hacker News frontpage", "alice"⟩ :=
  C4_news_flow ⟨"alice", 0, "lobby", "!news", ""⟩ "[ 1, 2 ]" newsOracle [1, 0]
    (by decide) (by decide)

lemma containsEsc_joinSep_cons (sep a : String) (rest : List String) (h : containsEsc a) :
    containsEsc (joinSep sep (a :: rest)) := by
  cases rest with
  | nil => exact h
  | cons b t =>
    show containsEsc (a ++ sep ++ joinSep sep (b :: t))
    exact containsEsc_append_left _ _ (containsEsc_append_left _ _ h)

lemma containsEsc_formatStory (st : HNStory) : containsEsc (formatStory st) := by
  unfold formatStory
  repeat apply containsEsc_append_left
  exact containsEsc_head_true

/-- C10 counterexample: when every story fetch fails individually, the
`!news` follow-up message is published with empty content, which embeds no
ANSI escape sequence. -/
theorem C10_counterexample :
    hn_background ⟨"alice", 0, "lobby", "!news", ""⟩ (some "[ 1 ]")
        (fun _ => .transportErr) [0]
      = some ⟨"server", 0, "lobby", "", "alice"⟩
    ∧ ¬ containsEsc "" := by
  constructor
  · decide
  · rintro ⟨l, q, hlq⟩
    have hlen := congrArg List.length hlq
    simp at hlen
    omega

/-- C10 (amended): every server-authored response content listed in the
claim embeds an ANSI color escape sequence — the join prompt, the join
announcement, the `!user` list, all three `!value` texts, the `!news`
placeholder, the `!news` error text, any `!news` story list with at least
one surviving story, and the departure message — and such contents equal
the spec's plain scenario texts only after stripping escapes; the two
degenerate exceptions are the `!news` follow-up when every story fetch
failed (empty content, see the counterexample) and the `!value` path whose
body text-decode fails (content passes through unchanged). -/
theorem C10_ansi_contents (inbound : ChatMessage) (users : Registry)
    (s r room u value : String) (ts : Int) (status errStatus : Nat)
    (cur : Currency) (top : Option String) (oracle : String → StoryOutcome)
    (sched : List Nat) (st : HNStory) (stories : List HNStory)
    (herr : isClientOrServerError errStatus = true)
    (hokst : isClientOrServerError status = false)
    (hparse : parseCurrency value = some cur)
    (hf32 : isF32Lit cur.price = true)
    (hstories : get_top_hn top oracle sched = some (Except.ok (st :: stories))) :
    containsEsc (build_need_to_join_response inbound).content
    ∧ containsEsc (build_user_connection_response ("!join " ++ r) users inbound ts).2.content
    ∧ containsEsc (build_user_command_response inbound users).content
    ∧ containsEsc (build_hn_command_response inbound).content
    ∧ (∃ m, build_binance_command_response s inbound .err = some m ∧ containsEsc m.content)
    ∧ (∃ m, build_binance_command_response s inbound (.ok errStatus (some value)) = some m
        ∧ containsEsc m.content)
    ∧ (∃ m, build_binance_command_response s inbound (.ok status (some value)) = some m
        ∧ containsEsc m.content)
    ∧ (∃ m, hn_background inbound top oracle sched = some m ∧ containsEsc m.content)
    ∧ (∃ m, hn_background inbound none oracle sched = some m ∧ containsEsc m.content)
    ∧ containsEsc (mk_disconnect_message room u ts).content
    ∧ stripAnsi (build_user_connection_response "!join lobby" []
        ⟨"alice", 0, "", "!join lobby", ""⟩ 0).2.content = "-- alice has joined lobby"
    ∧ stripAnsi (mk_disconnect_message "lobby" "alice" 0).content = "-- alice has left." := by
  refine ⟨?_, ?_, ?_, ?_, ?_, ?_, ?_, ?_, ?_, ?_, by decide, by decide⟩
  · exact containsEsc_append_left _ _
      (containsEsc_append_right _ _ (containsEsc_bright_yellow _))
  · exact containsEsc_truecolor 153 140 139 _
  · exact containsEsc_append_left _ _ (containsEsc_append_left _ _
      (containsEsc_append_right _ _ (containsEsc_bright_cyan _)))
  · exact containsEsc_truecolor 153 140 139 _
  · exact ⟨_, rfl, containsEsc_colRed _⟩
  · have hb : build_binance_command_response s inbound (.ok errStatus (some value))
        = some { inbound with
            sender := "server"
            content := colRed "Error requesting conversion rate for" ++ " "
              ++ bright_yellow (toUpperStr (dropLit "!value " s)) } := by
      simp only [build_binance_command_response, herr, if_true]
    exact ⟨_, hb, containsEsc_append_left _ _
      (containsEsc_append_left _ _ (containsEsc_colRed _))⟩
  · have hb : build_binance_command_response s inbound (.ok status (some value))
        = some { inbound with
            sender := "server"
            content := bright_yellow "$" ++ bright_yellow (toUpperStr (dropLit "!value " s))
              ++ " is currently worth " ++ bright_yellow (fmt2 cur.price)
              ++ bright_yellow "€" } := by
      simp only [build_binance_command_response, hokst, hparse, hf32, if_true,
        Bool.false_eq_true, if_false]
    refine ⟨_, hb, ?_⟩
    repeat apply containsEsc_append_left
    exact containsEsc_head_yellow
  · have hb : hn_background inbound top oracle sched
        = some { inbound with
            target := inbound.sender
            sender := "server"
            content := joinSep "\n" ((st :: stories).map formatStory) } := by
      unfold hn_background
      rw [hstories]
    refine ⟨_, hb, ?_⟩
    show containsEsc (joinSep "\n" (formatStory st :: stories.map formatStory))
    exact containsEsc_joinSep_cons _ _ _ (containsEsc_formatStory st)
  · exact ⟨_, rfl, containsEsc_colRed _⟩
  · exact containsEsc_truecolor 153 140 139 _

/-- Witness for C10 at concrete inputs (404 error status, 200 success
status, a canonical ticker payload, one fetched story). -/
theorem C10_ansi_contents_witness :
    containsEsc (build_need_to_join_response ⟨"alice", 0, "lobby", "hi", ""⟩).content
    ∧ containsEsc (build_user_connection_response ("!join " ++ "lobby") []
        ⟨"alice", 0, "lobby", "hi", ""⟩ 0).2.content
    ∧ containsEsc (build_user_command_response ⟨"alice", 0, "lobby", "hi", ""⟩ []).content
    ∧ containsEsc (build_hn_command_response ⟨"alice", 0, "lobby", "hi", ""⟩).content
    ∧ (∃ m, build_binance_command_response "!value btc" ⟨"alice", 0, "lobby", "hi", ""⟩ .err
        = some m ∧ containsEsc m.content)
    ∧ (∃ m, build_binance_command_response "!value btc" ⟨"alice", 0, "lobby", "hi", ""⟩
        (.ok 404 (some "\x7b\"symbol\":\"BTCEUR\",\"price\":\"65000.12\"\x7d")) = some m
        ∧ containsEsc m.content)
    ∧ (∃ m, build_binance_command_response "!value btc" ⟨"alice", 0, "lobby", "hi", ""⟩
        (.ok 200 (some "\x7b\"symbol\":\"BTCEUR\",\"price\":\"65000.12\"\x7d")) = some m
        ∧ containsEsc m.content)
    ∧ (∃ m, hn_background ⟨"alice", 0, "lobby", "hi", ""⟩ (some "[ 1 ]")
        (fun _ => .story ⟨none, 1, 0, "T", none⟩) [0] = some m ∧ containsEsc m.content)
    ∧ (∃ m, hn_background ⟨"alice", 0, "lobby", "hi", ""⟩ none
        (fun _ => .story ⟨none, 1, 0, "T", none⟩) [0] = some m ∧ containsEsc m.content)
    ∧ containsEsc (mk_disconnect_message "den" "bob" 0).content
    ∧ stripAnsi (build_user_connection_response "!join lobby" []
        ⟨"alice", 0, "", "!join lobby", ""⟩ 0).2.content = "-- alice has joined lobby"
    ∧ stripAnsi (mk_disconnect_message "lobby" "alice" 0).content = "-- alice has left." :=
  C10_ansi_contents ⟨"alice", 0, "lobby", "hi", ""⟩ [] "!value btc" "lobby" "den" "bob"
    "\x7b\"symbol\":\"BTCEUR\",\"price\":\"65000.12\"\x7d" 0 200 404 ⟨"BTCEUR", "65000.12"⟩
    (some "[ 1 ]") (fun _ => .story ⟨none, 1, 0, "T", none⟩) [0] ⟨none, 1, 0, "T", none⟩ []
    (by decide) (by decide) (by decide) (by decide) (by decide)
